import Mathlib

/-!
Verification model of the owner-schedule backend (`todo/views.py`,
`todo/models.py`).  Timestamps are modelled as minutes since a fixed epoch
whose day 0 is a Monday, so `weekday` matches Python's
`datetime.weekday()` (Monday = 0 … Sunday = 6).
-/

namespace OwnerSchedule

def minutesPerDay : Nat := 1440

/-- Python `dt.weekday()` for a timestamp in minutes (epoch day 0 is a Monday). -/
def weekday (t : Nat) : Nat := (t / minutesPerDay) % 7

/-- The `while current.weekday() >= 5: current += timedelta(days=1)` loop shared
by `_advance` and `create` in `todo/views.py`. -/
def skipWeekend (t : Nat) : Nat :=
  if h : 5 ≤ weekday t then skipWeekend (t + minutesPerDay) else t
termination_by (if 5 ≤ weekday t then 7 - weekday t else 0)
decreasing_by
  have hd : weekday t < 7 := Nat.mod_lt _ (by norm_num)
  have hstep : weekday (t + minutesPerDay) = (weekday t + 1) % 7 := by
    unfold weekday minutesPerDay
    rw [Nat.add_div_right _ (by norm_num), Nat.add_mod]
  simp only [hstep]
  split_ifs <;> omega

/-- `FREQUENCY_CHOICES` from `todo/models.py`. -/
inductive Frequency
  | never
  | daily
  | every_work_day
  | weekly
  | fortnightly
deriving DecidableEq, Repr

/-- `ScheduleSeries` model (`todo/models.py`). -/
structure ScheduleSeries where
  id : Nat
  title : Option String
  frequency : Frequency
  frequency_total : Option Int
  notes : Option String
  start_datetime : Option Nat
deriving DecidableEq, Repr

/-- `Schedule` model (`todo/models.py`). -/
structure Schedule where
  id : Nat
  title : Option String
  series : Option Nat
  datetime : Nat
  duration : Option Nat
  link : Option String
  notes : Option String
  is_exception : Bool
deriving DecidableEq, Repr

/-- `_advance` from `todo/views.py`. -/
def _advance (s : ScheduleSeries) (current : Nat) : Nat :=
  let current :=
    if s.frequency = .daily ∨ s.frequency = .every_work_day then
      current + minutesPerDay
    else if s.frequency = .weekly then
      current + 7 * minutesPerDay
    else if s.frequency = .fortnightly then
      current + 14 * minutesPerDay
    else current
  if s.frequency = .every_work_day then skipWeekend current else current

/-- `k`-fold application of `_advance`: the timestamp of the series occurrence
at 0-based index `k` when started from `t`. -/
def iterAdvance (s : ScheduleSeries) : Nat → Nat → Nat
  | 0, t => t
  | k + 1, t => iterAdvance s k (_advance s t)

/-- The list `[t, _advance t, …]` of length `m`: the virtual occurrence
timestamps generated by the advance-and-count loops. -/
def occsFrom (s : ScheduleSeries) (t : Nat) : Nat → List Nat
  | 0 => []
  | m + 1 => t :: occsFrom s (_advance s t) m

/-- Loop body of `_count_occurrences_before` (`todo/views.py`).  The loop
condition `current < target_dt and count < series.frequency_total` is modelled
faithfully; the caller is responsible for `frequency_total` being an `Int`
(a `None` value makes the Python comparison raise, see
`_count_occurrences_before`). -/
def countLoop (s : ScheduleSeries) (target : Nat) (ft : Int) (current : Nat) (count : Nat) : Nat :=
  if h : current < target ∧ (count : Int) < ft then
    countLoop s target ft (_advance s current) (count + 1)
  else count
termination_by (ft - count).toNat
decreasing_by omega

/-- `_count_occurrences_before` from `todo/views.py`.  Returns `none` when the
Python code raises an unhandled `TypeError`: that happens exactly when
`frequency_total` is `None` and the short-circuiting loop condition reaches the
comparison `count < series.frequency_total`, i.e. when `current < target_dt`
holds on the first iteration. -/
def _count_occurrences_before (s : ScheduleSeries) (target : Nat) : Option Nat :=
  match s.start_datetime with
  | none => some 0
  | some start =>
    if target < start then some 0
    else
      match s.frequency_total with
      | none => if start < target then none else some 0
      | some ft => some (countLoop s target ft start 0)

/-- Upper window bound check: `current <= end_date`, where `none` stands for an
unbounded window. -/
def withinEnd (current : Nat) : Option Nat → Prop
  | none => True
  | some e => current ≤ e

instance (current : Nat) (e : Option Nat) : Decidable (withinEnd current e) := by
  cases e <;> simp [withinEnd] <;> infer_instance

/-- The recurrence-expansion loop from `list` in `todo/views.py`:
`while current <= end_date and count < s.frequency_total:` emitting `current`
whenever `current >= start_date`. -/
def expandLoop (s : ScheduleSeries) (startW : Nat) (endW : Option Nat) (ft : Int)
    (current : Nat) (count : Nat) : List Nat :=
  if h : withinEnd current endW ∧ (count : Int) < ft then
    (if startW ≤ current then [current] else []) ++
      expandLoop s startW endW ft (_advance s current) (count + 1)
  else []
termination_by (ft - count).toNat
decreasing_by omega

/-- SeriesExpander: the timestamps generated for a series over a window,
per the dynamic-generation part of `list` in `todo/views.py` (including its
guard `if not s.frequency_total or s.frequency_total <= 0: continue`, and the
queryset filter that drops series without a `start_datetime`). -/
def expand (s : ScheduleSeries) (startW : Nat) (endW : Option Nat) : List Nat :=
  match s.start_datetime with
  | none => []
  | some st =>
    match s.frequency_total with
    | none => []
    | some ft => if ft ≤ 0 then [] else expandLoop s startW endW ft st 0

/-- The occurrence id served by `list`: either the `AutoField` pk of a stored
row or the composite `f"{series.id}-{current.isoformat()}"` key of a virtual
occurrence (represented structurally here; the string form is modelled by
`encodeCompositeKey`). -/
inductive OccurrenceId
  | stored (n : Nat)
  | composite (sid : Nat) (ts : Nat)
deriving DecidableEq, Repr

/-- An element of the `list` response (a serialized `Schedule`, whose id may be
a composite string). -/
structure OutEvent where
  id : OccurrenceId
  series : Option Nat
  title : Option String
  datetime : Nat
  duration : Option Nat
  link : Option String
  notes : Option String
  is_exception : Bool
deriving DecidableEq, Repr

/-- The persistence store: `ScheduleSeries` rows, `Schedule` rows, and the id
generators (`uuid4` for series and `AutoField` for events are both modelled as
counters). -/
structure DB where
  series : List ScheduleSeries
  events : List Schedule
  nextSeriesId : Nat
  nextEventId : Nat
deriving DecidableEq, Repr

/-- Stable insertion of `a` into a list already sorted by `key` (earlier
elements stay in front of later equal-key elements, like Python's stable
`sort`). -/
def insortBy (key : α → Nat) (a : α) : List α → List α
  | [] => [a]
  | x :: xs => if key x < key a then x :: insortBy key a xs else a :: x :: xs

/-- Stable sort by a `Nat` key, modelling `order_by('datetime')` /
`list.sort(key=...)`. -/
def sortByKey (key : α → Nat) : List α → List α
  | [] => []
  | x :: xs => insortBy key x (sortByKey key xs)

/-- Python `str.startswith` on the underlying character sequences. -/
def strStartsWith (s p : String) : Bool := p.data.isPrefixOf s.data

/-- `(title or "").startswith("DELETED_")`: the reserved tombstone marker test
from `todo/views.py`. -/
def tombstoneTitle (t : Option String) : Bool := strStartsWith (t.getD "") "DELETED_"

/-- The title written on tombstone rows.  The source appends a fresh `uuid4`
suffix (`f"DELETED_{uuid.uuid4()}"`); only the `DELETED_` prefix is ever
inspected, so the random suffix is abstracted away. -/
def deletedMarker : String := "DELETED_occurrence"

/-- The stored standalone events and exceptions within the window, ordered by
datetime (`stored_qs` in `list`). -/
def inStoredRange (startW endW : Nat) (e : Schedule) : Prop :=
  (e.series = none ∨ e.is_exception = true) ∧ startW ≤ e.datetime ∧ e.datetime ≤ endW

instance (startW endW : Nat) (e : Schedule) : Decidable (inStoredRange startW endW e) := by
  unfold inStoredRange; infer_instance

def storedEvents (db : DB) (startW endW : Nat) : List Schedule :=
  sortByKey (fun e => e.datetime)
    (db.events.filter (fun e => decide (inStoredRange startW endW e)))

/-- The keys of `exceptions_by_key` built in `list`: every stored in-range row
that carries a series reference. -/
def overlayKeys (stored : List Schedule) : List (Nat × Nat) :=
  stored.filterMap (fun e => e.series.map (fun sid => (sid, e.datetime)))

/-- The `deleted_keys` set built in `list`. -/
def deletedKeys (stored : List Schedule) : List (Nat × Nat) :=
  overlayKeys (stored.filter (fun e => e.is_exception && tombstoneTitle e.title))

/-- `base_by_series` entry for one series: the first (by datetime) persisted
non-exception row of the series. -/
def baseFor (db : DB) (sid : Nat) : Option Schedule :=
  (sortByKey (fun e => e.datetime)
    (db.events.filter (fun e => decide (e.series = some sid) && !e.is_exception))).head?

/-- A dynamically generated occurrence in `list` (virtual template: the series
supplies title/notes, the base event supplies duration/link). -/
def mkDynamic (s : ScheduleSeries) (base : Schedule) (current : Nat) : OutEvent :=
  { id := .composite s.id current
    series := some s.id
    title := s.title
    datetime := current
    duration := base.duration
    link := base.link
    notes := s.notes
    is_exception := false }

/-- The dynamic-generation loop of `list`, with the tombstone / exception
overlay checks. -/
def dynamicLoop (s : ScheduleSeries) (base : Schedule) (startW endW : Nat)
    (exKeys delKeys : List (Nat × Nat)) (ft : Int) (current : Nat) (count : Nat) :
    List OutEvent :=
  if h : current ≤ endW ∧ (count : Int) < ft then
    (if startW ≤ current then
      (if (s.id, current) ∈ delKeys then []
       else if (s.id, current) ∈ exKeys then []
       else [mkDynamic s base current])
     else []) ++
    dynamicLoop s base startW endW exKeys delKeys ft (_advance s current) (count + 1)
  else []
termination_by (ft - count).toNat
decreasing_by omega

/-- Dynamic occurrences contributed by one series in `list` (skipping series
without a base event, and series whose `frequency_total` is falsy or ≤ 0). -/
def dynamicForSeries (db : DB) (stored : List Schedule) (startW endW : Nat)
    (s : ScheduleSeries) : List OutEvent :=
  match baseFor db s.id with
  | none => []
  | some base =>
    match s.frequency_total with
    | none => []
    | some ft =>
      if ft ≤ 0 then []
      else
        match s.start_datetime with
        | none => []
        | some st =>
          dynamicLoop s base startW endW (overlayKeys stored) (deletedKeys stored) ft st 0

/-- All dynamic occurrences: `series_qs` is filtered by
`start_datetime__lte=end_date` (which also drops `NULL` anchors). -/
def dynamicEvents (db : DB) (stored : List Schedule) (startW endW : Nat) : List OutEvent :=
  (db.series.filter (fun s =>
      match s.start_datetime with
      | some st => decide (st ≤ endW)
      | none => false)).flatMap
    (dynamicForSeries db stored startW endW)

/-- Serialization of a stored row into the `list` response. -/
def toOutput (e : Schedule) : OutEvent :=
  { id := .stored e.id
    series := e.series
    title := e.title
    datetime := e.datetime
    duration := e.duration
    link := e.link
    notes := e.notes
    is_exception := e.is_exception }

/-- `list` from `todo/views.py` (TimelineMerger), for an already-parsed window:
stored non-tombstone rows plus dynamic occurrences, sorted by datetime. -/
def listRange (db : DB) (startW endW : Nat) : List OutEvent :=
  sortByKey (fun o => o.datetime)
    (((storedEvents db startW endW).filter
        (fun e => !(e.is_exception && tombstoneTitle e.title))).map toOutput ++
      dynamicEvents db (storedEvents db startW endW) startW endW)

/-- API-level responses.  An overall result of `none` (in the `Option`-valued
operations below) models an unhandled Python exception escaping the view
(transaction rolled back); these constructors model the handled responses. -/
inductive ApiResp
  | ok
  | created
  | noContent
  | badRequest
  | notFound
deriving DecidableEq, Repr

/-- Request body of `create`, with `datetime`/`duration` already run through
`_parse_dt`/`_parse_duration` (`none` = absent or unparseable) and the
`data.get('frequency') or 'never'` default already applied. -/
structure CreateData where
  title : Option String
  datetime : Option Nat
  duration : Option Nat
  notes : Option String
  link : Option String
  frequency : Frequency
  frequency_total : Option Int
deriving DecidableEq, Repr

/-- `create` from `todo/views.py`. -/
def create (db : DB) (d : CreateData) : DB × ApiResp :=
  match d.datetime with
  | none => (db, .badRequest)
  | some dt0 =>
    -- Advance the start date if it falls on a weekend for a workday series.
    let dt := if d.frequency = .every_work_day then skipWeekend dt0 else dt0
    if d.frequency ≠ .never then
      match d.frequency_total with
      | none => (db, .badRequest)
      | some ft =>
        if ft ≤ 0 then (db, .badRequest)
        else
          let series : ScheduleSeries :=
            { id := db.nextSeriesId, title := d.title, frequency := d.frequency,
              frequency_total := some ft, notes := d.notes, start_datetime := some dt }
          let base : Schedule :=
            { id := db.nextEventId, series := some db.nextSeriesId, title := d.title,
              datetime := dt, duration := d.duration, notes := d.notes, link := d.link,
              is_exception := false }
          ({ db with
              series := db.series ++ [series], events := db.events ++ [base],
              nextSeriesId := db.nextSeriesId + 1, nextEventId := db.nextEventId + 1 },
           .created)
    else
      let ev : Schedule :=
        { id := db.nextEventId, series := none, title := d.title, datetime := dt,
          duration := d.duration, notes := d.notes, link := d.link, is_exception := false }
      ({ db with events := db.events ++ [ev], nextEventId := db.nextEventId + 1 }, .created)

/-- An occurrence reference (`pk`): a stored integer pk or a composite
`seriesId + timestamp` key, already decoded (the string form is handled by
`encodeCompositeKey`/`decodeCompositeKey`). -/
inductive Ref
  | stored (n : Nat)
  | composite (sid : Nat) (ts : Nat)
deriving DecidableEq, Repr

/-- `_get_event_and_series` from `todo/views.py`.  The composite branch
returns the stored exception at the key if one exists, else an unsaved
template `Schedule` (its pk is not meaningful; `0` is used).  `none` models the
`(None, None, None)` not-found result. -/
def getEventAndSeries (db : DB) (ref : Ref) : Option (Schedule × Option ScheduleSeries × Nat) :=
  match ref with
  | .composite sid ts =>
    match db.series.find? (fun s => decide (s.id = sid)) with
    | none => none
    | some s =>
      match db.events.find? (fun e => decide (e.series = some sid ∧ e.datetime = ts)) with
      | some sch => some (sch, some s, ts)
      | none =>
        some ({ id := 0, series := some sid, datetime := ts, title := s.title,
                notes := s.notes, duration := none, link := none, is_exception := false },
              some s, ts)
  | .stored n =>
    match db.events.find? (fun e => decide (e.id = n)) with
    | none => none
    | some sch =>
      some (sch, sch.series.bind (fun sid => db.series.find? (fun s => decide (s.id = sid))),
            sch.datetime)

/-- Mutation scope (`delete_type` / `edit_type`). -/
inductive Scope
  | single
  | future
  | all
deriving DecidableEq, Repr

/-- `delete_event` from `todo/views.py`.  Result `none` models an unhandled
exception (the `TypeError` raised inside `_count_occurrences_before`). -/
def delete_event (db : DB) (ref : Ref) (scope : Scope) : Option (DB × ApiResp) :=
  match getEventAndSeries db ref with
  | none => some (db, .notFound)
  | some (schedule, seriesOpt, event_dt) =>
    match scope with
    | .all =>
      match seriesOpt with
      | none => some (db, .badRequest)
      | some series =>
        some ({ db with events :=
                  db.events.filter (fun e => !(decide (e.series = some series.id) && !e.is_exception)) },
              .noContent)
    | .future =>
      match seriesOpt with
      | none => some (db, .badRequest)
      | some series =>
        match _count_occurrences_before series event_dt with
        | none => none
        | some c =>
          let db1 := { db with
            series := db.series.map (fun r : ScheduleSeries =>
              if r.id = series.id then { r with frequency_total := some (c : Int) } else r) }
          some ({ db1 with
                  events := db1.events.filter (fun e =>
                    !(decide (e.series = some series.id) && !e.is_exception &&
                      decide (event_dt ≤ e.datetime))) },
                .noContent)
    | .single =>
      match seriesOpt with
      | none =>
        some ({ db with events := db.events.filter (fun e => !(decide (e.id = schedule.id))) },
              .noContent)
      | some series =>
        -- Mark the matching non-tombstone row (if any) as a deleted exception;
        -- a purely virtual occurrence has no such row and nothing is written.
        match db.events.find? (fun e =>
            decide (e.series = some series.id ∧ e.datetime = event_dt) &&
            !tombstoneTitle e.title) with
        | none => some (db, .noContent)
        | some ev =>
          some ({ db with
                  events := db.events.map (fun e =>
                    if e.id = ev.id then
                      { e with
                        is_exception := true, title := some deletedMarker,
                        duration := some 0, notes := some "Deleted occurrence",
                        link := some "" }
                    else e) },
                .noContent)

/-- Request body of the `edit` action; `duration` models `data['duration']`,
which the dispatcher always overwrites with the parsed value (so it is applied
unconditionally on save), while the other fields are present-or-absent. -/
structure EditData where
  title : Option String
  notes : Option String
  duration : Option Nat
  link : Option String
  datetime : Option Nat
  frequency : Option Frequency
  frequency_total : Option Int
deriving DecidableEq, Repr

/-- The final `serializer.save()` of a single-scope edit: a partial update
applying the supplied fields (and the always-present parsed duration) to the
in-memory instance. -/
def applyEditData (e : Schedule) (data : EditData) : Schedule :=
  { e with
    title := (match data.title with | some t => some t | none => e.title),
    notes := (match data.notes with | some v => some v | none => e.notes),
    link := (match data.link with | some v => some v | none => e.link),
    duration := data.duration,
    datetime := data.datetime.getD e.datetime }

/-- Django `save()` on a model instance: update the row with the same pk, or
insert it if no such row exists. -/
def saveEvent (events : List Schedule) (e : Schedule) : List Schedule :=
  if events.any (fun x => decide (x.id = e.id)) then
    events.map (fun x => if x.id = e.id then e else x)
  else events ++ [e]

/-- A tombstone placeholder as written by the single-scope edit
(`is_exception=True`, zero duration, reserved deleted-marker title). -/
def mkEditTombstone (eid sid dt : Nat) : Schedule :=
  { id := eid, series := some sid, datetime := dt, title := some deletedMarker,
    duration := some 0, link := none, notes := none, is_exception := true }

/-- Modelled from the spec: `ScheduleSeries.get_end_datetime` is called by the
single-scope edit branch of `todo/views.py` but is not defined anywhere under
the provided sources; per the spec it is the series' last scheduled
occurrence (the anchor advanced `total-occurrences - 1` times). -/
def get_end_datetime (s : ScheduleSeries) : Nat :=
  match s.start_datetime, s.frequency_total with
  | some a, some ft => iterAdvance s (ft.toNat - 1) a
  | _, _ => 0

/-- The `edit_type == 'future'` branch of `edit_event` (split the series at the
target occurrence).  Result `none` models an unhandled exception: either the
`TypeError` inside `_count_occurrences_before`, or the
`original_series_total - old_count` subtraction when `frequency_total` is
`None`; `@transaction.atomic` rolls back any partial writes. -/
def edit_event_future (db : DB) (schedule : Schedule) (seriesOpt : Option ScheduleSeries)
    (event_dt : Nat) (data : EditData) : Option (DB × ApiResp) :=
  match seriesOpt with
  | none => some (db, .badRequest)
  | some series =>
    match _count_occurrences_before series event_dt with
    | none => none
    | some old_count =>
      let db1 := { db with
        series := db.series.map (fun r : ScheduleSeries =>
          if r.id = series.id then { r with frequency_total := some (old_count : Int) } else r) }
      match series.frequency_total with
      | none => none
      | some original_total =>
        let new_total := original_total - (old_count : Int)
        if new_total ≤ 0 then some (db1, .ok)
        else
          let new_dt := data.datetime.getD event_dt
          let new_title := data.title.or series.title
          let new_notes := data.notes.or series.notes
          let new_link := data.link.or schedule.link
          let newS : ScheduleSeries :=
            { id := db.nextSeriesId, title := new_title, frequency := series.frequency,
              frequency_total := some new_total, notes := new_notes,
              start_datetime := some new_dt }
          let newBase : Schedule :=
            { id := db.nextEventId, series := some db.nextSeriesId, datetime := new_dt,
              is_exception := false, title := new_title, notes := new_notes,
              duration := data.duration, link := new_link }
          some ({ db1 with
                  series := db1.series ++ [newS],
                  events := db1.events ++ [newBase],
                  nextSeriesId := db.nextSeriesId + 1,
                  nextEventId := db.nextEventId + 1 },
                .ok)

/-- The `edit_type == 'single'` branch of `edit_event` (`todo/views.py`,
including series promotion, the base-event rebasing logic, and the final
partial `serializer.save()`).  Setting `schedule.frequency = 'never'` in the
source writes an attribute that is not a `Schedule` field and is never
persisted, so it has no model counterpart. -/
def edit_event_single (db : DB) (schedule : Schedule) (seriesOpt : Option ScheduleSeries)
    (data : EditData) : Option (DB × ApiResp) :=
  let frequency := data.frequency.getD .never
  if seriesOpt.isNone && decide (frequency ≠ .never) &&
      (match data.frequency_total with | some f => decide (0 < f) | none => false) then
    -- Promotion of a standalone event into a new series.
    let ftv := data.frequency_total.getD 0
    let newS : ScheduleSeries :=
      { id := db.nextSeriesId, title := data.title.or schedule.title,
        frequency := frequency, frequency_total := some ftv,
        notes := data.notes.or schedule.notes,
        start_datetime := some (data.datetime.getD schedule.datetime) }
    let schedule1 := { schedule with series := some db.nextSeriesId, is_exception := false }
    let db1 := { db with
                 series := db.series ++ [newS],
                 nextSeriesId := db.nextSeriesId + 1,
                 events := saveEvent db.events schedule1 }
    let schedule2 := applyEditData schedule1 data
    some ({ db1 with events := saveEvent db1.events schedule2 }, .ok)
  else
    let datetimeChanged : Bool :=
      match data.datetime with
      | some nd => decide (nd ≠ schedule.datetime)
      | none => false
    if datetimeChanged then
      match seriesOpt with
      | some series =>
        -- Placeholder tombstone at the old datetime, if none exists yet.
        let hasTomb := db.events.any (fun e =>
          decide (e.series = some series.id ∧ e.datetime = schedule.datetime) &&
          tombstoneTitle e.title)
        let db1 :=
          if hasTomb then db
          else { db with
                 events := db.events ++ [mkEditTombstone db.nextEventId series.id schedule.datetime],
                 nextEventId := db.nextEventId + 1 }
        let schedule1 := { schedule with series := none }
        let new_datetime := data.datetime.getD schedule.datetime
        let is_base_event := series.start_datetime = some schedule.datetime
        if is_base_event then
          let next_base :=
            (sortByKey (fun e => e.datetime)
              (db1.events.filter (fun e =>
                decide (e.series = some series.id) &&
                decide (schedule.datetime < e.datetime) &&
                !tombstoneTitle e.title))).head?
          match next_base with
          | some nb =>
            if get_end_datetime series < new_datetime then
              -- Moved outside the series: detach; the tombstone re-check finds
              -- the row created above, so nothing further is written; the next
              -- event becomes the new anchor.
              let schedule2 := { schedule1 with series := none, is_exception := false }
              let db2 := { db1 with
                series := db1.series.map (fun r : ScheduleSeries =>
                  if r.id = series.id then { r with start_datetime := some nb.datetime } else r) }
              some ({ db2 with events := saveEvent db2.events (applyEditData schedule2 data) }, .ok)
            else
              -- Still within the series: rebase the anchor onto the new
              -- datetime, mark the edited row as an exception, and clear the
              -- exception flag on the candidate base.
              let db2 := { db1 with
                series := db1.series.map (fun r : ScheduleSeries =>
                  if r.id = series.id then { r with start_datetime := some new_datetime } else r) }
              let schedule2 := { schedule1 with is_exception := true }
              let db3 := { db2 with events := saveEvent db2.events { nb with is_exception := false } }
              some ({ db3 with events := saveEvent db3.events (applyEditData schedule2 data) }, .ok)
          | none =>
            -- No other events: delete the series (cascading to its rows), the
            -- detached occurrence keeps its standalone identity.
            let schedule2 := { schedule1 with series := none, is_exception := false }
            let db2 := { db1 with
              series := db1.series.filter (fun r => !(decide (r.id = series.id))),
              events := db1.events.filter (fun e => !(decide (e.series = some series.id))) }
            some ({ db2 with events := saveEvent db2.events (applyEditData schedule2 data) }, .ok)
        else
          let schedule2 := { schedule1 with is_exception := true }
          some ({ db1 with events := saveEvent db1.events (applyEditData schedule2 data) }, .ok)
      | none =>
        some ({ db with events := saveEvent db.events (applyEditData schedule data) }, .ok)
    else
      let schedule2 :=
        if seriesOpt.isSome then { schedule with is_exception := true } else schedule
      some ({ db with events := saveEvent db.events (applyEditData schedule2 data) }, .ok)

/-- Composite-key encoding from `list`:
`f"{s.id}-{current.isoformat()}"`, over character sequences (the series id
renders as the 36-character canonical UUID string). -/
def encodeCompositeKey (sid iso : List Char) : List Char := sid ++ '-' :: iso

/-- Composite-key decoding from `_get_event_and_series`: guarded by
`isinstance(pk, str) and '-' in pk`, then `series_id_str = pk[:36]` and
`dt_str = pk[37:]`. -/
def decodeCompositeKey (pk : List Char) : Option (List Char × List Char) :=
  if '-' ∈ pk then some (pk.take 36, pk.drop 37) else none

/-! ### Concrete fixtures used by witnesses and counterexamples -/

/-- A daily series with 3 occurrences anchored at minute 0 (a Monday 00:00). -/
def sDaily3 : ScheduleSeries :=
  { id := 0, title := some "standup", frequency := .daily, frequency_total := some 3,
    notes := none, start_datetime := some 0 }

/-- A weekly series whose `frequency_total` is `NULL`. -/
def sNoTotal : ScheduleSeries :=
  { id := 1, title := some "untotalled", frequency := .weekly, frequency_total := none,
    notes := none, start_datetime := some 540 }

/-- An every-work-day series with 5 occurrences anchored at minute 0. -/
def sWorkday5 : ScheduleSeries :=
  { id := 2, title := some "workday", frequency := .every_work_day, frequency_total := some 5,
    notes := none, start_datetime := some 0 }

/-- A database holding only `sNoTotal` (no events). -/
def dbNoTotal : DB :=
  { series := [sNoTotal], events := [], nextSeriesId := 10, nextEventId := 10 }

/-- The persisted base event of `sDaily3`. -/
def baseDaily3 : Schedule :=
  { id := 1, title := some "standup", series := some 0, datetime := 0, duration := some 30,
    link := none, notes := none, is_exception := false }

/-- A database holding `sDaily3` and its base event. -/
def dbDaily3 : DB :=
  { series := [sDaily3], events := [baseDaily3], nextSeriesId := 1, nextEventId := 2 }

/-- An empty database. -/
def dbEmpty : DB := { series := [], events := [], nextSeriesId := 0, nextEventId := 0 }

/-- A create request with frequency `Never`. -/
def cNever : CreateData :=
  { title := some "one-off", datetime := some 540, duration := some 60, notes := none,
    link := none, frequency := .never, frequency_total := none }

/-- A recurring create request lacking `frequency_total`. -/
def cBadTotal : CreateData :=
  { title := some "rec", datetime := some 540, duration := none, notes := none,
    link := none, frequency := .daily, frequency_total := none }

/-- A work-day create request starting on a Saturday (day 5). -/
def cWorkdaySat : CreateData :=
  { title := some "wd", datetime := some (5 * 1440), duration := none, notes := none,
    link := none, frequency := .every_work_day, frequency_total := some 2 }

/-- An edit request supplying no fields at all. -/
def dataEmpty : EditData :=
  { title := none, notes := none, duration := none, link := none, datetime := none,
    frequency := none, frequency_total := none }

/-- A weekly series with 4 occurrences anchored at minute 540 (Monday 09:00). -/
def sWeekly4 : ScheduleSeries :=
  { id := 3, title := some "sync", frequency := .weekly, frequency_total := some 4,
    notes := none, start_datetime := some 540 }

/-- The persisted base event of `sWeekly4`. -/
def baseWeekly4 : Schedule :=
  { id := 5, title := some "sync", series := some 3, datetime := 540, duration := some 60,
    link := none, notes := none, is_exception := false }

/-- A tombstone at the third weekly occurrence (minute 20700). -/
def tombWeekly4 : Schedule :=
  { id := 6, title := some deletedMarker, series := some 3, datetime := 20700,
    duration := some 0, link := some "", notes := some "Deleted occurrence",
    is_exception := true }

/-- A content-exception at the second weekly occurrence (minute 10620). -/
def excWeekly4 : Schedule :=
  { id := 7, title := some "moved room", series := some 3, datetime := 10620,
    duration := some 45, link := none, notes := some "override", is_exception := true }

/-- `sWeekly4` with its base event and the tombstone. -/
def dbTomb : DB :=
  { series := [sWeekly4], events := [baseWeekly4, tombWeekly4], nextSeriesId := 4,
    nextEventId := 8 }

/-- `sWeekly4` with its base event and the content exception. -/
def dbExc : DB :=
  { series := [sWeekly4], events := [baseWeekly4, excWeekly4], nextSeriesId := 4,
    nextEventId := 8 }

/-- The C1 scenario database: the weekly series (anchor Monday 2024-01-01
09:00 = minute 540, 4 occurrences) with only its base event persisted. -/
def dbWeekly : DB :=
  { series := [sWeekly4], events := [baseWeekly4], nextSeriesId := 4, nextEventId := 8 }

/-! ### Basic lemmas about the time model and `_advance` -/

theorem weekday_lt_7 (t : Nat) : weekday t < 7 :=
  Nat.mod_lt _ (by norm_num)

theorem weekday_add_day (t : Nat) : weekday (t + minutesPerDay) = (weekday t + 1) % 7 := by
  unfold weekday minutesPerDay
  rw [Nat.add_div_right _ (by norm_num), Nat.add_mod]

/-- Closed form of the weekend-skipping loop. -/
theorem skipWeekend_closed (t : Nat) :
    skipWeekend t =
      if weekday t = 5 then t + 2 * minutesPerDay
      else if weekday t = 6 then t + minutesPerDay
      else t := by
  have hd := weekday_lt_7 t
  rw [skipWeekend]
  split_ifs with h h5 h6 h6
  · -- weekday t = 5: two more steps
    rw [skipWeekend]
    have h1 : weekday (t + minutesPerDay) = 6 := by
      rw [weekday_add_day, h5]
    rw [skipWeekend]
    have h2 : weekday (t + minutesPerDay + minutesPerDay) = 0 := by
      rw [weekday_add_day, h1]
    simp [h1, h2]
    ring
  · -- weekday t = 6: one more step
    have h1 : weekday (t + minutesPerDay) = 0 := by
      rw [weekday_add_day, h6]
    rw [skipWeekend]
    simp [h1]
  · omega
  · omega
  · omega
  · rfl

theorem skipWeekend_ge (t : Nat) : t ≤ skipWeekend t := by
  rw [skipWeekend_closed]; split_ifs <;> omega

theorem weekday_skipWeekend_lt (t : Nat) : weekday (skipWeekend t) < 5 := by
  have hd := weekday_lt_7 t
  rw [skipWeekend_closed]
  split_ifs with h5 h6
  · have heq : t + 2 * minutesPerDay = t + minutesPerDay + minutesPerDay := by ring
    rw [heq, weekday_add_day, weekday_add_day, h5]
    decide
  · rw [weekday_add_day, h6]
    decide
  · omega

theorem advance_le (s : ScheduleSeries) (t : Nat) : t ≤ _advance s t := by
  unfold _advance
  have hsw := skipWeekend_ge (t + minutesPerDay)
  have hm : 0 < minutesPerDay := by norm_num [minutesPerDay]
  cases s.frequency <;> simp <;> omega

theorem advance_lt (s : ScheduleSeries) (t : Nat) (h : s.frequency ≠ .never) :
    t < _advance s t := by
  unfold _advance
  have hsw := skipWeekend_ge (t + minutesPerDay)
  have hm : 0 < minutesPerDay := by norm_num [minutesPerDay]
  cases hf : s.frequency with
  | never => exact absurd hf h
  | daily => simp [hf]; omega
  | every_work_day => simp [hf]; omega
  | weekly => simp [hf]; omega
  | fortnightly => simp [hf]; omega

/-- `_advance` only inspects the frequency. -/
theorem advance_congr {s₁ s₂ : ScheduleSeries} (h : s₁.frequency = s₂.frequency) (t : Nat) :
    _advance s₁ t = _advance s₂ t := by
  unfold _advance
  rw [h]

theorem iterAdvance_succ_back (s : ScheduleSeries) (k t : Nat) :
    iterAdvance s (k + 1) t = _advance s (iterAdvance s k t) := by
  induction k generalizing t with
  | zero => rfl
  | succ k ih => rw [iterAdvance, ih, iterAdvance]

theorem iterAdvance_congr {s₁ s₂ : ScheduleSeries} (h : s₁.frequency = s₂.frequency)
    (k t : Nat) : iterAdvance s₁ k t = iterAdvance s₂ k t := by
  induction k generalizing t with
  | zero => rfl
  | succ k ih => rw [iterAdvance, iterAdvance, advance_congr h, ih]

theorem iterAdvance_le (s : ScheduleSeries) (k t : Nat) : t ≤ iterAdvance s k t := by
  induction k generalizing t with
  | zero => exact Nat.le_refl t
  | succ k ih =>
    rw [iterAdvance]
    exact le_trans (advance_le s t) (ih (_advance s t))

theorem iterAdvance_strict (s : ScheduleSeries) (h : s.frequency ≠ .never)
    {i j : Nat} (hij : i < j) (t : Nat) : iterAdvance s i t < iterAdvance s j t := by
  induction j with
  | zero => omega
  | succ j ih =>
    rw [iterAdvance_succ_back]
    rcases Nat.lt_or_ge i j with hlt | hge
    · exact lt_of_lt_of_le (ih hlt) (advance_le s _)
    · have : i = j := by omega
      subst this
      exact advance_lt s _ h

/-! ### Lemmas about `occsFrom` and the three scan loops -/

theorem occsFrom_length (s : ScheduleSeries) (t m : Nat) : (occsFrom s t m).length = m := by
  induction m generalizing t with
  | zero => rfl
  | succ m ih => simp [occsFrom, ih]

theorem occsFrom_congr {s₁ s₂ : ScheduleSeries} (h : s₁.frequency = s₂.frequency)
    (t m : Nat) : occsFrom s₁ t m = occsFrom s₂ t m := by
  induction m generalizing t with
  | zero => rfl
  | succ m ih => rw [occsFrom, occsFrom, advance_congr h, ih]

theorem occsFrom_append (s : ScheduleSeries) (t : Nat) (a b : Nat) :
    occsFrom s t (a + b) = occsFrom s t a ++ occsFrom s (iterAdvance s a t) b := by
  induction a generalizing t with
  | zero => simp [occsFrom, iterAdvance]
  | succ a ih =>
    have : a + 1 + b = (a + b) + 1 := by omega
    rw [this, occsFrom, occsFrom, iterAdvance, ih]
    simp

theorem le_of_mem_occsFrom (s : ScheduleSeries) {t m x : Nat}
    (hx : x ∈ occsFrom s t m) : t ≤ x := by
  induction m generalizing t with
  | zero => simp [occsFrom] at hx
  | succ m ih =>
    rw [occsFrom] at hx
    rcases List.mem_cons.mp hx with rfl | hx
    · exact Nat.le_refl x
    · exact le_trans (advance_le s t) (ih hx)

theorem lt_iter_of_mem_occsFrom (s : ScheduleSeries) (h : s.frequency ≠ .never)
    {t m x : Nat} (hx : x ∈ occsFrom s t m) : x < iterAdvance s m t := by
  induction m generalizing t with
  | zero => simp [occsFrom] at hx
  | succ m ih =>
    rw [occsFrom] at hx
    rw [iterAdvance]
    rcases List.mem_cons.mp hx with rfl | hx
    · exact lt_of_lt_of_le (advance_lt s x h) (iterAdvance_le s m _)
    · exact ih hx

theorem occsFrom_chain_advance (s : ScheduleSeries) (t m : Nat) :
    List.Chain' (fun x y => y = _advance s x) (occsFrom s t m) := by
  induction m generalizing t with
  | zero => simp [occsFrom]
  | succ m ih =>
    rw [occsFrom]
    cases m with
    | zero => simp [occsFrom]
    | succ m =>
      rw [occsFrom]
      exact List.Chain'.cons rfl (by rw [← occsFrom] ; exact ih (_advance s t))

theorem occsFrom_pairwise_le (s : ScheduleSeries) (t m : Nat) :
    List.Pairwise (· ≤ ·) (occsFrom s t m) := by
  induction m generalizing t with
  | zero => simp [occsFrom]
  | succ m ih =>
    rw [occsFrom]
    exact List.Pairwise.cons
      (fun x hx => le_trans (advance_le s t) (le_of_mem_occsFrom s hx)) (ih _)

theorem occsFrom_head (s : ScheduleSeries) (t m : Nat) (h : 0 < m) :
    (occsFrom s t m).head? = some t := by
  cases m with
  | zero => omega
  | succ m => rfl

/-- The expansion loop is the occurrence prefix of length `(ft - count).toNat`,
restricted to the window, provided the whole prefix clears the upper bound. -/
theorem expandLoop_eq_filter (s : ScheduleSeries) (startW : Nat) (endW : Option Nat)
    (ft : Int) :
    ∀ (m current count : Nat), (ft - count).toNat = m →
      (∀ x ∈ occsFrom s current m, withinEnd x endW) →
      expandLoop s startW endW ft current count =
        (occsFrom s current m).filter (fun x => decide (startW ≤ x)) := by
  intro m
  induction m with
  | zero =>
    intro current count hm _
    rw [expandLoop]
    have : ¬((count : Int) < ft) := by omega
    simp [this, occsFrom]
  | succ m ih =>
    intro current count hm hin
    have hcnt : (count : Int) < ft := by omega
    have hcur : withinEnd current endW := hin current (by rw [occsFrom]; simp)
    rw [expandLoop]
    rw [dif_pos ⟨hcur, hcnt⟩]
    have hrec := ih (_advance s current) (count + 1) (by push_cast; omega)
      (fun x hx => hin x (by rw [occsFrom]; exact List.mem_cons_of_mem _ hx))
    rw [hrec, occsFrom]
    by_cases hsw : startW ≤ current
    · simp [List.filter_cons, hsw]
    · simp [List.filter_cons, hsw]

/-- The counting loop counts the leading occurrences strictly before the
target. -/
theorem countLoop_eq_takeWhile (s : ScheduleSeries) (target : Nat) (ft : Int) :
    ∀ (m current count : Nat), (ft - count).toNat = m →
      countLoop s target ft current count =
        count + ((occsFrom s current m).takeWhile (fun x => decide (x < target))).length := by
  intro m
  induction m with
  | zero =>
    intro current count hm
    rw [countLoop]
    have : ¬((count : Int) < ft) := by omega
    simp [this, occsFrom]
  | succ m ih =>
    intro current count hm
    have hcnt : (count : Int) < ft := by omega
    rw [countLoop, occsFrom]
    by_cases hlt : current < target
    · rw [dif_pos ⟨hlt, hcnt⟩, ih (_advance s current) (count + 1) (by push_cast; omega)]
      simp [List.takeWhile_cons, hlt]
      omega
    · rw [dif_neg (by tauto)]
      simp [List.takeWhile_cons, hlt]

/-- Last-occurrence bound: every generated timestamp is at most the
`(n-1)`-st occurrence. -/
theorem mem_occsFrom_le_last (s : ScheduleSeries) (hfreq : s.frequency ≠ .never)
    {a n x : Nat} (hn : 0 < n) (hx : x ∈ occsFrom s a n) :
    x ≤ iterAdvance s (n - 1) a := by
  have hsplit : occsFrom s a n = occsFrom s a (n - 1) ++ occsFrom s (iterAdvance s (n - 1) a) 1 := by
    rw [← occsFrom_append]
    congr 1
    omega
  rw [hsplit] at hx
  rcases List.mem_append.mp hx with hx | hx
  · exact le_of_lt (lt_iter_of_mem_occsFrom s hfreq hx)
  · simp [occsFrom] at hx
    omega

/-- For a sorted list, the prefix strictly below `t` and the elements at or
above `t` partition the list. -/
theorem takeWhile_filter_partition (t : Nat) :
    ∀ (l : List Nat), List.Pairwise (· ≤ ·) l →
      (l.takeWhile (fun x => decide (x < t))).length +
        (l.filter (fun x => decide (t ≤ x))).length = l.length := by
  intro l
  induction l with
  | nil => intro _; rfl
  | cons x xs ih =>
    intro hl
    rcases List.pairwise_cons.mp hl with ⟨hx, hxs⟩
    by_cases hlt : x < t
    · have hnle : ¬t ≤ x := by omega
      have hih := ih hxs
      simp [List.takeWhile_cons, List.filter_cons, hlt, hnle]
      omega
    · have hge : t ≤ x := by omega
      have hall : xs.filter (fun y => decide (t ≤ y)) = xs :=
        List.filter_eq_self.mpr (fun y hy => by simpa using le_trans hge (hx y hy))
      simp [List.takeWhile_cons, List.filter_cons, hlt, hge, hall]

theorem countLoop_at_occ (s : ScheduleSeries) (hfreq : s.frequency ≠ .never)
    (a : Nat) {n k : Nat} (hk : k < n) :
    ∀ (d j : Nat), j ≤ k → k - j = d →
      countLoop s (iterAdvance s k a) (n : Int) (iterAdvance s j a) j = k := by
  intro d
  induction d with
  | zero =>
    intro j hj hd
    have hjk : j = k := by omega
    subst hjk
    rw [countLoop]
    simp
  | succ d ih =>
    intro j hj hd
    have hjk : j < k := by omega
    rw [countLoop,
      dif_pos ⟨iterAdvance_strict s hfreq hjk a, by exact_mod_cast (by omega : j < n)⟩,
      ← iterAdvance_succ_back]
    exact ih (j + 1) (by omega) (by omega)

/-- `_count_occurrences_before` at the `k`-th scheduled occurrence returns `k`. -/
theorem countBefore_at_occ (s : ScheduleSeries) (hfreq : s.frequency ≠ .never)
    {a n k : Nat} (hstart : s.start_datetime = some a)
    (hft : s.frequency_total = some (n : Int)) (hk : k < n) :
    _count_occurrences_before s (iterAdvance s k a) = some k := by
  unfold _count_occurrences_before
  simp only [hstart, hft]
  rw [if_neg (by exact Nat.not_lt.mpr (iterAdvance_le s k a))]
  have h0 := countLoop_at_occ s hfreq a hk k 0 (Nat.zero_le _) rfl
  rw [iterAdvance] at h0
  rw [h0]

/-- Expansion over a window that covers the whole series is the full
occurrence list. -/
theorem expand_eq_occsFrom (s : ScheduleSeries) {a n : Nat}
    (hstart : s.start_datetime = some a) (hft : s.frequency_total = some (n : Int))
    (hn : 0 < n) (startW : Nat) (endW : Option Nat) (hsw : startW ≤ a)
    (hew : ∀ x ∈ occsFrom s a n, withinEnd x endW) :
    expand s startW endW = occsFrom s a n := by
  unfold expand
  simp only [hstart, hft]
  rw [if_neg (by exact_mod_cast Nat.not_le.mpr hn),
    expandLoop_eq_filter s startW endW (n : Int) n a 0 (by simp) hew]
  exact List.filter_eq_self.mpr
    (fun x hx => by simpa using le_trans hsw (le_of_mem_occsFrom s hx))

/-- Expansion over `[t, +∞)` keeps exactly the occurrences at or after `t`. -/
theorem expand_unbounded_eq_filter (s : ScheduleSeries) {a n : Nat}
    (hstart : s.start_datetime = some a) (hft : s.frequency_total = some (n : Int))
    (hn : 0 < n) (t : Nat) :
    expand s t none = (occsFrom s a n).filter (fun x => decide (t ≤ x)) := by
  unfold expand
  simp only [hstart, hft]
  rw [if_neg (by exact_mod_cast Nat.not_le.mpr hn),
    expandLoop_eq_filter s t none (n : Int) n a 0 (by simp) (fun x _ => trivial)]

/-! ### Claim theorems -/

/-- C5: for a series with a positive occurrence total, expansion over a window
containing the whole series (window start at or before the anchor, window end
at or after the last scheduled occurrence) yields exactly `n` timestamps,
strictly increasing, starting at the anchor, each successive one produced by
`_advance`; and a series whose `frequency_total` is absent or non-positive
expands to nothing.  The first part is stated for non-`Never` frequencies, the
spec's domain for `advance`. -/
theorem c5_bounded_generation
    (s : ScheduleSeries) (a n startW endW : Nat)
    (hfreq : s.frequency ≠ .never)
    (hstart : s.start_datetime = some a)
    (hft : s.frequency_total = some (n : Int))
    (hn : 0 < n)
    (hsw : startW ≤ a)
    (hew : iterAdvance s (n - 1) a ≤ endW)
    (s2 : ScheduleSeries) (w1 : Nat) (w2 : Option Nat)
    (hft2 : s2.frequency_total.getD 0 ≤ 0) :
    (expand s startW (some endW)).length = n ∧
    (expand s startW (some endW)).head? = some a ∧
    List.Chain' (fun x y => y = _advance s x) (expand s startW (some endW)) ∧
    List.Chain' (· < ·) (expand s startW (some endW)) ∧
    expand s2 w1 w2 = [] := by
  have hE : expand s startW (some endW) = occsFrom s a n :=
    expand_eq_occsFrom s hstart hft hn startW (some endW) hsw
      (fun x hx => le_trans (mem_occsFrom_le_last s hfreq hn hx) hew)
  refine ⟨?_, ?_, ?_, ?_, ?_⟩
  · rw [hE, occsFrom_length]
  · rw [hE, occsFrom_head s a n hn]
  · rw [hE]; exact occsFrom_chain_advance s a n
  · rw [hE]
    exact (occsFrom_chain_advance s a n).imp
      (fun x y (h : y = _advance s x) => h ▸ advance_lt s x hfreq)
  · unfold expand
    cases hs2 : s2.start_datetime with
    | none => rfl
    | some st =>
      cases hf2 : s2.frequency_total with
      | none => rfl
      | some f =>
        rw [hf2] at hft2
        simp only [Option.getD_some] at hft2
        simp [hft2]

/-- Witness for C5 on a concrete 3-occurrence daily series and a series with a
`NULL` total. -/
theorem c5_bounded_generation_witness :
    (expand sDaily3 0 (some 10000)).length = 3 ∧
    (expand sDaily3 0 (some 10000)).head? = some 0 ∧
    List.Chain' (fun x y => y = _advance sDaily3 x) (expand sDaily3 0 (some 10000)) ∧
    List.Chain' (· < ·) (expand sDaily3 0 (some 10000)) ∧
    expand sNoTotal 0 none = [] :=
  c5_bounded_generation sDaily3 0 3 0 10000 (by decide) rfl rfl (by decide) (by decide)
    (by decide) sNoTotal 0 none (by decide)

/-- C6: `countBefore(series, t) + |expand(series, [t, +∞))| = total-occurrences`
for `t` inside the series span (the count is returned, not an error, and the
sum is exact). -/
theorem c6_countBefore_consistency
    (s : ScheduleSeries) (a n t : Nat)
    (hstart : s.start_datetime = some a)
    (hft : s.frequency_total = some (n : Int))
    (hn : 0 < n)
    (hat : a ≤ t)
    (hbt : t ≤ iterAdvance s (n - 1) a) :
    (_count_occurrences_before s t).isSome = true ∧
    (_count_occurrences_before s t).getD 0 + (expand s t none).length = n := by
  have hcb : _count_occurrences_before s t = some (countLoop s t (n : Int) a 0) := by
    unfold _count_occurrences_before
    simp only [hstart, hft]
    rw [if_neg (by omega)]
  have hcl := countLoop_eq_takeWhile s t (n : Int) n a 0 (by simp)
  have hex := expand_unbounded_eq_filter s hstart hft hn t
  refine ⟨by rw [hcb]; rfl, ?_⟩
  rw [hcb, hex]
  simp only [Option.getD, hcl]
  have := takeWhile_filter_partition t (occsFrom s a n) (occsFrom_pairwise_le s a n)
  rw [occsFrom_length] at this
  omega

/-- Witness for C6 on the concrete daily series, with `t` at the second
occurrence. -/
theorem c6_countBefore_consistency_witness :
    (_count_occurrences_before sDaily3 1440).isSome = true ∧
    (_count_occurrences_before sDaily3 1440).getD 0 + (expand sDaily3 1440 none).length = 3 :=
  c6_countBefore_consistency sDaily3 0 3 1440 rfl rfl (by decide) (by decide) (by decide)

/-- C7: advancing with the `every_work_day` frequency always lands on a
weekday (Monday–Friday), and hence every iterate (one or more applications)
of the advance from any start is a non-weekend timestamp. -/
theorem c7_workday_skipping
    (s : ScheduleSeries) (t k : Nat)
    (hf : s.frequency = .every_work_day) (hk : 0 < k) :
    weekday (_advance s t) < 5 ∧ weekday (iterAdvance s k t) < 5 := by
  have h1 : ∀ u, weekday (_advance s u) < 5 := by
    intro u
    unfold _advance
    simp [hf]
    exact weekday_skipWeekend_lt (u + minutesPerDay)
  refine ⟨h1 t, ?_⟩
  cases k with
  | zero => omega
  | succ k =>
    rw [iterAdvance_succ_back]
    exact h1 _


/-- Witness for C7 starting on a Friday 09:00 (day 4), one iteration. -/
theorem c7_workday_skipping_witness :
    weekday (_advance sWorkday5 (4 * 1440 + 540)) < 5 ∧
    weekday (iterAdvance sWorkday5 1 (4 * 1440 + 540)) < 5 :=
  c7_workday_skipping sWorkday5 (4 * 1440 + 540) 1 rfl (by decide)

/-- C8: composite occurrence keys round-trip — encoding a 36-character series
id with an ISO timestamp suffix and decoding (`pk[:36]`, `pk[37:]`) recovers
both components exactly. -/
theorem c8_composite_key_roundtrip (sid iso : List Char) (hlen : sid.length = 36) :
    decodeCompositeKey (encodeCompositeKey sid iso) = some (sid, iso) := by
  unfold decodeCompositeKey encodeCompositeKey
  rw [if_pos (by
    refine List.mem_append.mpr (Or.inr ?_)
    exact List.mem_cons_self '-' iso)]
  have htake : (sid ++ '-' :: iso).take 36 = sid := by
    rw [List.take_append_of_le_length (by omega), List.take_of_length_le (by omega)]
  have hdrop : (sid ++ '-' :: iso).drop 37 = iso := by
    rw [List.append_cons]
    have hl : (sid ++ ['-']).length = 37 := by simp [hlen]
    rw [← hl, List.drop_left]
  rw [htake, hdrop]

/-- Witness for C8 on a concrete 36-character id and ISO suffix. -/
theorem c8_composite_key_roundtrip_witness :
    decodeCompositeKey
        (encodeCompositeKey (List.replicate 36 'a') "2024-01-15T09:00:00".data) =
      some (List.replicate 36 'a', "2024-01-15T09:00:00".data) :=
  c8_composite_key_roundtrip (List.replicate 36 'a') "2024-01-15T09:00:00".data (by decide)

/-- C10 counterexample: on a series whose `frequency_total` is `NULL`, calling
`_count_occurrences_before` with the target *equal to the anchor* does not
raise — the short-circuiting loop guard returns 0 before the `count <
series.frequency_total` comparison is evaluated — so the claim's "at or after
the anchor" quantification is refuted at the anchor itself. -/
theorem c10_counterexample_at_anchor :
    _count_occurrences_before sNoTotal 540 = some 0 ∧
    delete_event dbNoTotal (.composite 1 540) .future =
      some ({ dbNoTotal with series := [{ sNoTotal with frequency_total := some 0 }] },
            .noContent) := by
  constructor
  · rfl
  · rfl

/-- C10 (amended to targets strictly after the anchor): with a `NULL`
`frequency_total` and a target strictly after the anchor, the count loop
reaches the `count < series.frequency_total` comparison and raises an
unhandled `TypeError`, so future-scoped delete and future-scoped edit both
fail with an unhandled error rather than a request-level error response. -/
theorem c10_null_total_raises
    (db : DB) (s : ScheduleSeries) (sch : Schedule) (data : EditData) (sid t a : Nat)
    (hfind : db.series.find? (fun r => decide (r.id = sid)) = some s)
    (hft : s.frequency_total = none)
    (hstart : s.start_datetime = some a)
    (hlt : a < t) :
    _count_occurrences_before s t = none ∧
    delete_event db (.composite sid t) .future = none ∧
    edit_event_future db sch (some s) t data = none := by
  have hcb : _count_occurrences_before s t = none := by
    unfold _count_occurrences_before
    simp only [hstart, hft]
    rw [if_neg (by omega : ¬t < a), if_pos hlt]
  refine ⟨hcb, ?_, ?_⟩
  · simp only [delete_event, getEventAndSeries, hfind]
    cases hfe : db.events.find? (fun e => decide (e.series = some sid ∧ e.datetime = t)) with
    | none => simp [hcb]
    | some sch2 => simp [hcb]
  · simp only [edit_event_future, hcb]

/-- Witness for the amended C10 on the concrete `NULL`-total series, one week
after the anchor. -/
theorem c10_null_total_raises_witness :
    _count_occurrences_before sNoTotal 10620 = none ∧
    delete_event dbNoTotal (.composite 1 10620) .future = none ∧
    edit_event_future dbNoTotal
      { id := 0, title := none, series := some 1, datetime := 10620, duration := none,
        link := none, notes := none, is_exception := false }
      (some sNoTotal) 10620
      { title := none, notes := none, duration := none, link := none, datetime := none,
        frequency := none, frequency_total := none } = none :=
  c10_null_total_raises dbNoTotal sNoTotal
    { id := 0, title := none, series := some 1, datetime := 10620, duration := none,
      link := none, notes := none, is_exception := false }
    { title := none, notes := none, duration := none, link := none, datetime := none,
      frequency := none, frequency_total := none }
    1 10620 540 rfl rfl rfl (by decide)

/-- C9: `create` persists exactly one standalone occurrence (and no series)
when the frequency is `Never`; rejects the request with no state change when a
non-`Never` frequency comes with a missing or non-positive total; and
otherwise atomically creates the series descriptor and its base event,
anchored at the supplied start, adjusted forward off weekends for
`every_work_day` (the adjusted anchor always being at or after the supplied
start and on a weekday). -/
theorem c9_create_semantics
    (db1 : DB) (d1 : CreateData) (t1 : Nat)
    (h1f : d1.frequency = .never) (h1t : d1.datetime = some t1)
    (db2 : DB) (d2 : CreateData) (t2 : Nat)
    (h2f : d2.frequency ≠ .never) (h2t : d2.datetime = some t2)
    (h2ft : d2.frequency_total.getD 0 ≤ 0)
    (db3 : DB) (d3 : CreateData) (t3 : Nat) (m : Int)
    (h3f : d3.frequency ≠ .never) (h3t : d3.datetime = some t3)
    (h3ft : d3.frequency_total = some m) (h3m : 0 < m) :
    create db1 d1 =
      ({ db1 with
         events := db1.events ++
           [{ id := db1.nextEventId, series := none, title := d1.title, datetime := t1,
              duration := d1.duration, notes := d1.notes, link := d1.link,
              is_exception := false }],
         nextEventId := db1.nextEventId + 1 }, .created) ∧
    create db2 d2 = (db2, .badRequest) ∧
    create db3 d3 =
      ({ db3 with
         series := db3.series ++
           [{ id := db3.nextSeriesId, title := d3.title, frequency := d3.frequency,
              frequency_total := some m, notes := d3.notes,
              start_datetime :=
                some (if d3.frequency = .every_work_day then skipWeekend t3 else t3) }],
         events := db3.events ++
           [{ id := db3.nextEventId, series := some db3.nextSeriesId, title := d3.title,
              datetime := (if d3.frequency = .every_work_day then skipWeekend t3 else t3),
              duration := d3.duration, notes := d3.notes, link := d3.link,
              is_exception := false }],
         nextSeriesId := db3.nextSeriesId + 1, nextEventId := db3.nextEventId + 1 },
       .created) ∧
    t3 ≤ skipWeekend t3 ∧ weekday (skipWeekend t3) < 5 := by
  refine ⟨?_, ?_, ?_, skipWeekend_ge t3, weekday_skipWeekend_lt t3⟩
  · simp [create, h1t, h1f]
  · simp only [create, h2t]
    rw [if_pos (by simp [h2f])]
    cases hf2 : d2.frequency_total with
    | none => rfl
    | some f =>
      rw [hf2] at h2ft
      simp only [Option.getD_some] at h2ft
      simp [h2ft]
  · simp only [create, h3t, h3ft]
    rw [if_pos (by simp [h3f]), if_neg (by omega)]

/-- Witness for C9: a `Never` create, a daily create without a total, and an
`every_work_day` create starting on a Saturday. -/
theorem c9_create_semantics_witness :
    create dbEmpty cNever =
      ({ dbEmpty with
         events := dbEmpty.events ++
           [{ id := dbEmpty.nextEventId, series := none, title := cNever.title, datetime := 540,
              duration := cNever.duration, notes := cNever.notes, link := cNever.link,
              is_exception := false }],
         nextEventId := dbEmpty.nextEventId + 1 }, .created) ∧
    create dbEmpty cBadTotal = (dbEmpty, .badRequest) ∧
    create dbEmpty cWorkdaySat =
      ({ dbEmpty with
         series := dbEmpty.series ++
           [{ id := dbEmpty.nextSeriesId, title := cWorkdaySat.title,
              frequency := cWorkdaySat.frequency, frequency_total := some 2,
              notes := cWorkdaySat.notes,
              start_datetime :=
                some (if cWorkdaySat.frequency = .every_work_day then skipWeekend (5 * 1440)
                      else 5 * 1440) }],
         events := dbEmpty.events ++
           [{ id := dbEmpty.nextEventId, series := some dbEmpty.nextSeriesId,
              title := cWorkdaySat.title,
              datetime := (if cWorkdaySat.frequency = .every_work_day then skipWeekend (5 * 1440)
                           else 5 * 1440),
              duration := cWorkdaySat.duration, notes := cWorkdaySat.notes,
              link := cWorkdaySat.link, is_exception := false }],
         nextSeriesId := dbEmpty.nextSeriesId + 1, nextEventId := dbEmpty.nextEventId + 1 },
       .created) ∧
    5 * 1440 ≤ skipWeekend (5 * 1440) ∧ weekday (skipWeekend (5 * 1440)) < 5 :=
  c9_create_semantics dbEmpty cNever 540 rfl rfl dbEmpty cBadTotal 540 (by decide) rfl
    (by decide) dbEmpty cWorkdaySat (5 * 1440) 2 (by decide) rfl rfl (by decide)

/-- C3: a future-scoped edit at the `k`-th occurrence (0 < k < n) shrinks the
original series to `k`, creates an independent series with `n - k` occurrences
anchored at the supplied new datetime (or the effective timestamp), persists
its base event; and when no datetime is supplied the two series' generated
occurrence sets are disjoint and together are exactly the original `n`
scheduled slots. -/
theorem c3_future_split_conservation
    (db : DB) (sch : Schedule) (s : ScheduleSeries) (data : EditData) (a k n : Nat)
    (hfreq : s.frequency ≠ .never)
    (hstart : s.start_datetime = some a)
    (hft : s.frequency_total = some (n : Int))
    (hk0 : 0 < k) (hkn : k < n)
    (s2 : ScheduleSeries) (a2 k2 n2 : Nat)
    (hfreq2 : s2.frequency ≠ .never)
    (hstart2 : s2.start_datetime = some a2)
    (hft2 : s2.frequency_total = some (n2 : Int))
    (hk02 : 0 < k2) (hkn2 : k2 < n2) (nid2 : Nat) :
    edit_event_future db sch (some s) (iterAdvance s k a) data =
      some ({ db with
              series := db.series.map (fun r : ScheduleSeries =>
                  if r.id = s.id then { r with frequency_total := some (k : Int) } else r) ++
                [{ id := db.nextSeriesId, title := data.title.or s.title,
                   frequency := s.frequency, frequency_total := some ((n : Int) - (k : Int)),
                   notes := data.notes.or s.notes,
                   start_datetime := some (data.datetime.getD (iterAdvance s k a)) }],
              events := db.events ++
                [{ id := db.nextEventId, series := some db.nextSeriesId,
                   datetime := data.datetime.getD (iterAdvance s k a), is_exception := false,
                   title := data.title.or s.title, notes := data.notes.or s.notes,
                   duration := data.duration, link := data.link.or sch.link }],
              nextSeriesId := db.nextSeriesId + 1, nextEventId := db.nextEventId + 1 }, .ok) ∧
    expand { s2 with frequency_total := some (k2 : Int) } 0 none ++
      expand { id := nid2, title := s2.title, frequency := s2.frequency,
               frequency_total := some ((n2 : Int) - (k2 : Int)), notes := s2.notes,
               start_datetime := some (iterAdvance s2 k2 a2) } 0 none =
      expand s2 0 none ∧
    List.Disjoint (expand { s2 with frequency_total := some (k2 : Int) } 0 none)
      (expand { id := nid2, title := s2.title, frequency := s2.frequency,
                frequency_total := some ((n2 : Int) - (k2 : Int)), notes := s2.notes,
                start_datetime := some (iterAdvance s2 k2 a2) } 0 none) := by
  have hcb := countBefore_at_occ s hfreq hstart hft hkn
  have hOld : expand { s2 with frequency_total := some (k2 : Int) } 0 none =
      occsFrom s2 a2 k2 := by
    rw [expand_eq_occsFrom { s2 with frequency_total := some (k2 : Int) }
      (by simpa using hstart2) rfl hk02 0 none (Nat.zero_le _) (fun x _ => trivial)]
    exact @occsFrom_congr { s2 with frequency_total := some (k2 : Int) } s2 rfl a2 k2
  have hNewCast : ((n2 : Int) - (k2 : Int)) = ((n2 - k2 : Nat) : Int) := by omega
  have hNew : expand
      { id := nid2, title := s2.title, frequency := s2.frequency,
        frequency_total := some ((n2 : Int) - (k2 : Int)), notes := s2.notes,
        start_datetime := some (iterAdvance s2 k2 a2) } 0 none =
      occsFrom s2 (iterAdvance s2 k2 a2) (n2 - k2) := by
    rw [hNewCast, expand_eq_occsFrom _ rfl rfl (by omega) 0 none (Nat.zero_le _)
      (fun x _ => trivial)]
    exact @occsFrom_congr
      { id := nid2, title := s2.title, frequency := s2.frequency,
        frequency_total := some ((n2 - k2 : Nat) : Int), notes := s2.notes,
        start_datetime := some (iterAdvance s2 k2 a2) } s2 rfl _ _
  refine ⟨?_, ?_, ?_⟩
  · simp only [edit_event_future, hcb, hft]
    rw [if_neg (by omega)]
  · rw [hOld, hNew, ← occsFrom_append,
      expand_eq_occsFrom s2 hstart2 hft2 (by omega) 0 none (Nat.zero_le _) (fun x _ => trivial)]
    congr 1
    omega
  · rw [hOld, hNew]
    intro x hx hx2
    have h1 := lt_iter_of_mem_occsFrom s2 hfreq2 hx
    have h2 := le_of_mem_occsFrom s2 hx2
    omega

/-- Witness for C3 at `k = 1` of the concrete 3-occurrence daily series. -/
theorem c3_future_split_conservation_witness :
    edit_event_future dbDaily3 baseDaily3 (some sDaily3) (iterAdvance sDaily3 1 0) dataEmpty =
      some ({ dbDaily3 with
              series := dbDaily3.series.map (fun r : ScheduleSeries =>
                  if r.id = sDaily3.id then { r with frequency_total := some 1 } else r) ++
                [{ id := dbDaily3.nextSeriesId, title := dataEmpty.title.or sDaily3.title,
                   frequency := sDaily3.frequency, frequency_total := some ((3 : Int) - (1 : Int)),
                   notes := dataEmpty.notes.or sDaily3.notes,
                   start_datetime := some (dataEmpty.datetime.getD (iterAdvance sDaily3 1 0)) }],
              events := dbDaily3.events ++
                [{ id := dbDaily3.nextEventId, series := some dbDaily3.nextSeriesId,
                   datetime := dataEmpty.datetime.getD (iterAdvance sDaily3 1 0),
                   is_exception := false, title := dataEmpty.title.or sDaily3.title,
                   notes := dataEmpty.notes.or sDaily3.notes,
                   duration := dataEmpty.duration, link := dataEmpty.link.or baseDaily3.link }],
              nextSeriesId := dbDaily3.nextSeriesId + 1,
              nextEventId := dbDaily3.nextEventId + 1 }, .ok) ∧
    expand { sDaily3 with frequency_total := some 1 } 0 none ++
      expand { id := 7, title := sDaily3.title, frequency := sDaily3.frequency,
               frequency_total := some ((3 : Int) - (1 : Int)), notes := sDaily3.notes,
               start_datetime := some (iterAdvance sDaily3 1 0) } 0 none =
      expand sDaily3 0 none ∧
    List.Disjoint (expand { sDaily3 with frequency_total := some 1 } 0 none)
      (expand { id := 7, title := sDaily3.title, frequency := sDaily3.frequency,
                frequency_total := some ((3 : Int) - (1 : Int)), notes := sDaily3.notes,
                start_datetime := some (iterAdvance sDaily3 1 0) } 0 none) :=
  c3_future_split_conservation dbDaily3 baseDaily3 sDaily3 dataEmpty 0 1 3
    (by decide) rfl rfl (by decide) (by decide)
    sDaily3 0 1 3 (by decide) rfl rfl (by decide) (by decide) 7

/-! ### Lemmas about the timeline merger (`listRange`) -/

theorem insortBy_perm (key : α → Nat) (a : α) (l : List α) :
    List.Perm (insortBy key a l) (a :: l) := by
  induction l with
  | nil => exact List.Perm.refl _
  | cons x xs ih =>
    rw [insortBy]
    split_ifs
    · exact (ih.cons x).trans (List.Perm.swap a x xs)
    · exact List.Perm.refl _

theorem sortByKey_perm (key : α → Nat) (l : List α) :
    List.Perm (sortByKey key l) l := by
  induction l with
  | nil => exact List.Perm.refl _
  | cons x xs ih => exact (insortBy_perm key x _).trans (ih.cons x)

/-- Every element emitted by the dynamic-generation loop carries the series'
id and a key that is not overlaid by a stored exception. -/
theorem mem_dynamicLoop (s : ScheduleSeries) (base : Schedule) (startW endW : Nat)
    (exKeys delKeys : List (Nat × Nat)) (ft : Int) :
    ∀ (m current count : Nat), (ft - count).toNat = m →
      ∀ o ∈ dynamicLoop s base startW endW exKeys delKeys ft current count,
        o.series = some s.id ∧ (s.id, o.datetime) ∉ exKeys := by
  intro m
  induction m with
  | zero =>
    intro current count hm o ho
    rw [dynamicLoop, dif_neg (by rintro ⟨-, hlt⟩; omega)] at ho
    simp at ho
  | succ m ih =>
    intro current count hm o ho
    rw [dynamicLoop] at ho
    by_cases hc : current ≤ endW ∧ (count : Int) < ft
    · rw [dif_pos hc] at ho
      rcases List.mem_append.mp ho with ho | ho
      · split_ifs at ho with hsw hdel hex
        · simp at ho
        · simp at ho
        · rcases List.mem_singleton.mp ho with rfl
          exact ⟨rfl, hex⟩
        · simp at ho
      · exact ih (_advance s current) (count + 1) (by push_cast; omega) o ho
    · rw [dif_neg hc] at ho
      simp at ho

theorem mem_dynamicForSeries {db : DB} {stored : List Schedule} {startW endW : Nat}
    {s : ScheduleSeries} {o : OutEvent}
    (ho : o ∈ dynamicForSeries db stored startW endW s) :
    o.series = some s.id ∧ (s.id, o.datetime) ∉ overlayKeys stored := by
  unfold dynamicForSeries at ho
  split at ho
  · simp at ho
  · split at ho
    · simp at ho
    · split at ho
      · simp at ho
      · split at ho
        · simp at ho
        · exact mem_dynamicLoop s _ startW endW _ _ _ _ _ 0 rfl o ho

theorem mem_dynamicEvents {db : DB} {stored : List Schedule} {startW endW : Nat}
    {o : OutEvent} (ho : o ∈ dynamicEvents db stored startW endW) :
    ∃ s : ScheduleSeries, o.series = some s.id ∧ (s.id, o.datetime) ∉ overlayKeys stored := by
  unfold dynamicEvents at ho
  rcases List.mem_flatMap.mp ho with ⟨s, _, ho⟩
  exact ⟨s, mem_dynamicForSeries ho⟩

/-- A permutation onto a list of at most one element is an equality. -/
theorem perm_eq_of_length_le_one {α : Type _} {l m : List α} (h : l.Perm m)
    (hm : m.length ≤ 1) : l = m := by
  cases m with
  | nil => exact h.eq_nil
  | cons x xs =>
    cases xs with
    | nil => exact List.perm_singleton.mp h
    | cons y ys => simp at hm

/-- The overlay behaviour of `list` at a single `(series, timestamp)` key: if
`e` is the unique persisted row at the key and it is an in-window exception,
the merged result contains nothing at the key when `e` is a tombstone, and
exactly the serialized `e` otherwise. -/
theorem listRange_filter_key (db : DB) (sid T startW endW : Nat) (e : Schedule)
    (h1 : startW ≤ T) (h2 : T ≤ endW)
    (hkey : db.events.filter (fun x => decide (x.series = some sid ∧ x.datetime = T)) = [e])
    (hexc : e.is_exception = true) :
    (listRange db startW endW).filter
        (fun o => decide (o.series = some sid ∧ o.datetime = T)) =
      if tombstoneTitle e.title then [] else [toOutput e] := by
  have he_f : e ∈ db.events.filter (fun x => decide (x.series = some sid ∧ x.datetime = T)) := by
    rw [hkey]; exact List.mem_singleton_self e
  have he_mem : e ∈ db.events := List.mem_of_mem_filter he_f
  have he_prop : e.series = some sid ∧ e.datetime = T := by
    have := List.of_mem_filter he_f
    simpa using this
  have hstored_perm := sortByKey_perm (fun x : Schedule => x.datetime)
    (db.events.filter (fun x => decide (inStoredRange startW endW x)))
  have he_range : decide (inStoredRange startW endW e) = true := by
    refine decide_eq_true ⟨Or.inr hexc, ?_, ?_⟩ <;> omega
  have he_stored : e ∈ storedEvents db startW endW := by
    unfold storedEvents
    exact hstored_perm.mem_iff.mpr (List.mem_filter.mpr ⟨he_mem, he_range⟩)
  have hoverlay : (sid, T) ∈ overlayKeys (storedEvents db startW endW) := by
    unfold overlayKeys
    refine List.mem_filterMap.mpr ⟨e, he_stored, ?_⟩
    rw [he_prop.1]
    simp [he_prop.2]
  -- The dynamic part contributes nothing at the key.
  have hdyn : (dynamicEvents db (storedEvents db startW endW) startW endW).filter
      (fun o => decide (o.series = some sid ∧ o.datetime = T)) = [] := by
    rw [List.filter_eq_nil]
    intro o ho hp
    obtain ⟨s, hser, hnot⟩ := mem_dynamicEvents ho
    have hp2 : o.series = some sid ∧ o.datetime = T := of_decide_eq_true hp
    apply hnot
    have hsid : s.id = sid := by
      rw [hp2.1] at hser
      exact (Option.some.injEq _ _ ▸ hser).symm
    rw [hsid, hp2.2]
    exact hoverlay
  -- The stored part at the key is `e` exactly when it is not a tombstone.
  have hstored_filter :
      (((storedEvents db startW endW).filter
          (fun x => !(x.is_exception && tombstoneTitle x.title))).filter
        (fun x => decide (x.series = some sid ∧ x.datetime = T))).Perm
        (if tombstoneTitle e.title then [] else [e]) := by
    have hp1 : (((storedEvents db startW endW).filter
          (fun x => !(x.is_exception && tombstoneTitle x.title))).filter
        (fun x => decide (x.series = some sid ∧ x.datetime = T))).Perm
        ((((db.events.filter (fun x => decide (inStoredRange startW endW x))).filter
          (fun x => !(x.is_exception && tombstoneTitle x.title))).filter
        (fun x => decide (x.series = some sid ∧ x.datetime = T)))) := by
      unfold storedEvents
      exact (hstored_perm.filter _).filter _
    have hcollapse :
        (((db.events.filter (fun x => decide (inStoredRange startW endW x))).filter
          (fun x => !(x.is_exception && tombstoneTitle x.title))).filter
        (fun x => decide (x.series = some sid ∧ x.datetime = T))) =
        (db.events.filter (fun x => decide (x.series = some sid ∧ x.datetime = T))).filter
          (fun x => !(x.is_exception && tombstoneTitle x.title) &&
            decide (inStoredRange startW endW x)) := by
      rw [List.filter_filter, List.filter_filter, List.filter_filter]
      apply List.filter_congr
      intro a _
      cases decide (a.series = some sid ∧ a.datetime = T) <;>
        cases (!(a.is_exception && tombstoneTitle a.title)) <;>
        cases decide (inStoredRange startW endW a) <;> rfl
    have hY : (db.events.filter (fun x => decide (x.series = some sid ∧ x.datetime = T))).filter
          (fun x => !(x.is_exception && tombstoneTitle x.title) &&
            decide (inStoredRange startW endW x)) =
        if tombstoneTitle e.title then [] else [e] := by
      rw [hkey]
      cases htt : tombstoneTitle e.title <;>
        simp [List.filter_cons, hexc, he_range, htt]
    rw [hcollapse, hY] at hp1
    exact hp1
  -- Assemble the merged result.
  have hmain : ((listRange db startW endW).filter
      (fun o => decide (o.series = some sid ∧ o.datetime = T))).Perm
      ((if tombstoneTitle e.title then [] else [e]).map toOutput) := by
    unfold listRange
    refine ((sortByKey_perm _ _).filter _).trans ?_
    rw [List.filter_append, hdyn, List.append_nil, List.filter_map]
    have hcongr : ((storedEvents db startW endW).filter
          (fun x => !(x.is_exception && tombstoneTitle x.title))).filter
          ((fun o => decide (o.series = some sid ∧ o.datetime = T)) ∘ toOutput) =
        ((storedEvents db startW endW).filter
          (fun x => !(x.is_exception && tombstoneTitle x.title))).filter
          (fun x => decide (x.series = some sid ∧ x.datetime = T)) :=
      List.filter_congr (fun a _ => rfl)
    rw [hcongr]
    exact hstored_filter.map toOutput
  have hmap : (if tombstoneTitle e.title then [] else [e]).map toOutput =
      (if tombstoneTitle e.title then [] else [toOutput e]) := by
    cases tombstoneTitle e.title <;> simp
  rw [hmap] at hmain
  exact perm_eq_of_length_le_one hmain (by cases tombstoneTitle e.title <;> simp)

/-- C4: for a window containing `T`, a tombstone persisted at `(series, T)`
(the unique row at that key) suppresses the occurrence entirely — `list`
contains nothing at `(series, T)`; a stored non-tombstone exception at the key
is instead served exactly once and verbatim, in place of the virtual
template. -/
theorem c4_overlay_precedence
    (db : DB) (sid T startW endW : Nat) (e : Schedule)
    (h1 : startW ≤ T) (h2 : T ≤ endW)
    (hkey : db.events.filter (fun x => decide (x.series = some sid ∧ x.datetime = T)) = [e])
    (hexc : e.is_exception = true)
    (htomb : tombstoneTitle e.title = true)
    (db2 : DB) (sid2 T2 startW2 endW2 : Nat) (e2 : Schedule)
    (h12 : startW2 ≤ T2) (h22 : T2 ≤ endW2)
    (hkey2 : db2.events.filter (fun x => decide (x.series = some sid2 ∧ x.datetime = T2)) = [e2])
    (hexc2 : e2.is_exception = true)
    (hnotomb2 : tombstoneTitle e2.title = false) :
    (listRange db startW endW).filter
        (fun o => decide (o.series = some sid ∧ o.datetime = T)) = [] ∧
    (listRange db2 startW2 endW2).filter
        (fun o => decide (o.series = some sid2 ∧ o.datetime = T2)) = [toOutput e2] := by
  constructor
  · rw [listRange_filter_key db sid T startW endW e h1 h2 hkey hexc, htomb]
    rfl
  · rw [listRange_filter_key db2 sid2 T2 startW2 endW2 e2 h12 h22 hkey2 hexc2, hnotomb2]
    rfl

/-- Witness for C4: the concrete weekly series with a tombstone at its third
occurrence and, separately, a stored exception at its second occurrence. -/
theorem c4_overlay_precedence_witness :
    (listRange dbTomb 0 100000).filter
        (fun o => decide (o.series = some 3 ∧ o.datetime = 20700)) = [] ∧
    (listRange dbExc 0 100000).filter
        (fun o => decide (o.series = some 3 ∧ o.datetime = 10620)) = [toOutput excWeekly4] :=
  c4_overlay_precedence dbTomb 3 20700 0 100000 tombWeekly4 (by decide) (by decide)
    (by decide) rfl (by decide)
    dbExc 3 10620 0 100000 excWeekly4 (by decide) (by decide) (by decide) rfl (by decide)

/-- C1, evaluated at the failing input: a single-scope delete of the purely
virtual occurrence at 2024-01-15 09:00 (minute 20700) of the weekly series,
referenced by its composite key, finds no persisted row at the key, writes
nothing — the database is returned unchanged with a success response, no
tombstone exists — and the subsequent list over January still returns all four
occurrences including 01-15 (minutes 540, 10620, 20700, 30780, i.e. 01-01,
01-08, 01-15, 01-22), contradicting the claimed tombstone-and-three-results
outcome. -/
theorem c1_delete_virtual_occurrence_noop :
    delete_event dbWeekly (.composite 3 20700) .single = some (dbWeekly, .noContent) ∧
    (listRange dbWeekly 0 43200).map (fun o => o.datetime) = [540, 10620, 20700, 30780] := by
  constructor
  · rfl
  · simp +decide [listRange, storedEvents, sortByKey, insortBy, dynamicEvents, dynamicForSeries,
      baseFor, overlayKeys, deletedKeys, dynamicLoop, _advance, dbWeekly, sWeekly4, baseWeekly4,
      mkDynamic, minutesPerDay, tombstoneTitle, strStartsWith, toOutput]

/-- C2 counterexample: in the scenario (3-occurrence daily series anchored at
minute 0 whose only persisted row is its base event; single-scope edit moving
the base event to day 5 = minute 5760), the resulting database holds **no**
series at all — so no series whose anchor was reset to the day-2 occurrence
exists, refuting the claim. -/
theorem c2_counterexample_series_deleted :
    (edit_event_single dbDaily3 baseDaily3 (some sDaily3)
        { dataEmpty with datetime := some 5760 }).map (fun p => p.1.series) = some [] := by
  rfl

/-- C2 (amended): moving the base event of the 3-occurrence daily series to
day 5, when the base event is the only persisted row, makes the edited
occurrence a standalone event at day 5 (no owning series) and deletes the
series entirely (there is no persisted candidate base, so no anchor reset and
no remaining occurrences; the cascade also removes the freshly written
tombstone). -/
theorem c2_base_edit_beyond_span_deletes_series :
    edit_event_single dbDaily3 baseDaily3 (some sDaily3)
        { dataEmpty with datetime := some 5760 } =
      some ({ series := [],
              events := [{ id := 1, title := some "standup", series := none, datetime := 5760,
                           duration := none, link := none, notes := none,
                           is_exception := false }],
              nextSeriesId := 1, nextEventId := 3 }, .ok) := by
  rfl

end OwnerSchedule
